import Mathlib

/-!
Verification of the forge-cohort-platform amendment/contract subsystem.

The data model is a shallow embedding of the relational schema in
`apps/api/prisma/migrations/20250826131926_init/migration.sql`;
the operations embed the Express route handlers in
`apps/api/src/routes/contracts.ts`.  Timestamps are modelled as `Nat`,
the relational store as lists of rows, and fresh ids / current time are
passed in explicitly (the ORM supplies them in the source).
-/

/-- `users.role` column (TEXT, default 'PARTICIPANT'). -/
inductive Role where
  | PARTICIPANT
  | FACILITATOR
  | ADMIN
deriving DecidableEq, Repr

/-- `amendments.status` column (TEXT, default 'PENDING'). -/
inductive AmendmentStatus where
  | PENDING
  | ACCEPTED
  | REJECTED
deriving DecidableEq, Repr

/-- Row of the `users` table. -/
structure User where
  id : String
  email : String
  name : Option String
  role : Role
  createdAt : Nat
  updatedAt : Nat
deriving DecidableEq, Repr

/-- Row of the `cohorts` table. -/
structure Cohort where
  id : String
  name : String
  description : Option String
  createdAt : Nat
  updatedAt : Nat
deriving DecidableEq, Repr

/-- Row of the `contracts` table. -/
structure Contract where
  id : String
  title : String
  cohortId : String
  createdAt : Nat
  updatedAt : Nat
deriving DecidableEq, Repr

/-- Row of the `clauses` table. -/
structure Clause where
  id : String
  title : String
  content : String
  contractId : String
  userId : String
  createdAt : Nat
  updatedAt : Nat
deriving DecidableEq, Repr

/-- Row of the `amendments` table. -/
structure Amendment where
  id : String
  content : String
  userId : String
  clauseId : String
  status : AmendmentStatus
  createdAt : Nat
  updatedAt : Nat
deriving DecidableEq, Repr

/-- Row of the `tension_measurements` table. -/
structure TensionMeasurement where
  id : String
  value : Int
  context : Option String
  contractId : String
  userId : String
  createdAt : Nat
deriving DecidableEq, Repr

/-- Row of the `journal_entries` table. -/
structure JournalEntry where
  id : String
  title : String
  content : String
  contractId : String
  userId : String
  tags : String
  createdAt : Nat
  updatedAt : Nat
deriving DecidableEq, Repr

/-- Row of the `failure_entries` table. -/
structure FailureEntry where
  id : String
  title : String
  description : String
  lessons : String
  contractId : String
  userId : String
  createdAt : Nat
  updatedAt : Nat
deriving DecidableEq, Repr

/-- Row of the `iterations` table. -/
structure Iteration where
  id : String
  description : String
  outcome : String
  failureEntryId : String
  createdAt : Nat
  updatedAt : Nat
deriving DecidableEq, Repr

/-- The relational store: one list of rows per table, plus the
`_CohortMembers` join table (pairs of cohort id `A` and user id `B`). -/
structure Store where
  users : List User
  cohorts : List Cohort
  contracts : List Contract
  clauses : List Clause
  amendments : List Amendment
  tensionMeasurements : List TensionMeasurement
  journalEntries : List JournalEntry
  failureEntries : List FailureEntry
  iterations : List Iteration
  cohortMembers : List (String × String)
deriving DecidableEq, Repr

/-- Error taxonomy of spec section 7.  The Express handlers collapse storage
failures to HTTP 500; the categories distinguish the underlying cause
(`NotFound` = referenced entity missing, `InvalidState` = illegal status
transition, `ConstraintViolation` = delete blocked by dependents). -/
inductive ApiError where
  | NotFound
  | InvalidState
  | ValidationError
  | ConstraintViolation
  | InternalError
deriving DecidableEq, Repr

/-- `prisma.contract.findUnique { where: { id } }`. -/
def findContract (s : Store) (id : String) : Option Contract :=
  s.contracts.find? (fun c => c.id == id)

/-- `prisma.clause` lookup by id (the target of `connect: { id: clauseId }`). -/
def findClause (s : Store) (id : String) : Option Clause :=
  s.clauses.find? (fun c => c.id == id)

/-- `prisma.user` lookup by id (the target of `connect: { id: userId }`). -/
def findUser (s : Store) (id : String) : Option User :=
  s.users.find? (fun u => u.id == id)

/-- `prisma.amendment` lookup by id. -/
def findAmendment (s : Store) (id : String) : Option Amendment :=
  s.amendments.find? (fun a => a.id == id)

/-- The `select { id, name, email }` user projection used throughout
`contracts.ts`. -/
structure UserSummary where
  id : String
  name : Option String
  email : String
deriving DecidableEq, Repr

/-- `select { id: true, name: true, email: true }` applied to a user row. -/
def userSummary (u : User) : UserSummary :=
  { id := u.id, name := u.name, email := u.email }

/-- An amendment together with its `proposedBy` include
(GET /contracts/:id, lines 82-92 of contracts.ts). -/
structure AmendmentView where
  amendment : Amendment
  proposedBy : Option UserSummary
deriving DecidableEq, Repr

/-- A clause together with its `amendments` and `createdBy` includes. -/
structure ClauseView where
  clause : Clause
  amendments : List AmendmentView
  createdBy : Option UserSummary
deriving DecidableEq, Repr

/-- A cohort together with its `members` include. -/
structure CohortView where
  cohort : Cohort
  members : List UserSummary
deriving DecidableEq, Repr

/-- A contract together with the `clauses` (each with amendments and author)
and `cohort` (with members) includes of the GET /contracts/:id handler. -/
structure ContractView where
  contract : Contract
  clauses : List ClauseView
  cohort : Option CohortView
deriving DecidableEq, Repr

/-- The `include: { proposedBy: { select: ... } }` on one amendment row. -/
def amendmentView (s : Store) (a : Amendment) : AmendmentView :=
  { amendment := a, proposedBy := (findUser s a.userId).map userSummary }

/-- The `include: { amendments: ..., createdBy: ... }` on one clause row. -/
def clauseView (s : Store) (c : Clause) : ClauseView :=
  { clause := c,
    amendments := (s.amendments.filter (fun a => a.clauseId == c.id)).map (amendmentView s),
    createdBy := (findUser s c.userId).map userSummary }

/-- The `include: { members: { select: ... } }` on one cohort row, resolving
the `_CohortMembers` join rows whose `A` column is this cohort. -/
def cohortView (s : Store) (co : Cohort) : CohortView :=
  { cohort := co,
    members := (s.cohortMembers.filter (fun m => m.1 == co.id)).filterMap
      (fun m => (findUser s m.2).map userSummary) }

/-- GET /contracts/:id handler (contracts.ts lines 75-125):
`prisma.contract.findUnique` with the full include tree; `none` models the
404 "Contract not found" branch, `some v` the 200 response body. -/
def getContractHandler (s : Store) (id : String) : Option ContractView :=
  (findContract s id).map (fun c =>
    { contract := c,
      clauses := (s.clauses.filter (fun cl => cl.contractId == c.id)).map (clauseView s),
      cohort := (s.cohorts.find? (fun co => co.id == c.cohortId)).map (cohortView s) })

/-- Construction of an `amendments` row as the database inserts it: the
`status` column defaults to 'PENDING' when the insert supplies no value
(migration.sql line 49); `createdAt` defaults to the current time and
Prisma maintains `updatedAt`. -/
def mkAmendmentRow (id content userId clauseId : String)
    (statusArg : Option AmendmentStatus) (now : Nat) : Amendment :=
  { id := id, content := content, userId := userId, clauseId := clauseId,
    status := statusArg.getD .PENDING, createdAt := now, updatedAt := now }

/-- POST /contracts/:id/amend handler (contracts.ts lines 202-229):
`prisma.amendment.create` with `connect` on clause and proposer.  `connect`
fails when the referenced row does not exist (Prisma error P2025, a
`NotFound` in the spec taxonomy) and then nothing is persisted.  The insert
supplies no `status`, so the stored default applies.  `pathId` is
`req.params.id`; `freshId`/`now` stand for the ORM-generated id and
timestamp.  On success the result is the new store paired with the created
amendment (the 201 body, before its `proposedBy` include). -/
def amendHandler (s : Store) (pathId : String) (freshId : String) (now : Nat)
    (clauseId content userId : String) : Except ApiError (Store × Amendment) :=
  match findClause s clauseId, findUser s userId with
  | some _, some _ =>
      let a := mkAmendmentRow freshId content userId clauseId none now
      .ok ({ s with amendments := s.amendments ++ [a] }, a)
  | _, _ => .error .NotFound

/-- The store after a POST /contracts/:id/amend call: unchanged when the
handler fails (the failed `create` persists nothing). -/
def amendHandlerStore (s : Store) (pathId : String) (freshId : String) (now : Nat)
    (clauseId content userId : String) : Store :=
  match amendHandler s pathId freshId now clauseId content userId with
  | .ok (s2, _) => s2
  | .error _ => s

/-- True when some row of another table still references contract `id`
through one of the four ON DELETE RESTRICT foreign keys into `contracts`
(clauses, tension_measurements, journal_entries, failure_entries). -/
def contractDependents (s : Store) (id : String) : Bool :=
  s.clauses.any (fun c => c.contractId == id) ||
  s.tensionMeasurements.any (fun t => t.contractId == id) ||
  s.journalEntries.any (fun j => j.contractId == id) ||
  s.failureEntries.any (fun f => f.contractId == id)

/-- DELETE /contracts/:id handler (contracts.ts lines 159-170):
`prisma.contract.delete`.  Deleting a missing row raises Prisma P2025
(`NotFound`); a remaining RESTRICT reference raises a foreign-key error
(`ConstraintViolation` in the spec taxonomy); otherwise the row is removed. -/
def deleteContract (s : Store) (id : String) : Except ApiError Store :=
  if (findContract s id).isNone then .error .NotFound
  else if contractDependents s id then .error .ConstraintViolation
  else .ok { s with contracts := s.contracts.filter (fun c => !(c.id == id)) }

/-- The store after a DELETE /contracts/:id call: unchanged when the
handler fails. -/
def deleteContractStore (s : Store) (id : String) : Store :=
  match deleteContract s id with
  | .ok s2 => s2
  | .error _ => s

/-- ON DELETE action of a foreign key in migration.sql. -/
inductive OnDeleteAction where
  | Restrict
  | Cascade
deriving DecidableEq, Repr

/-- A foreign-key constraint of migration.sql: constraint name, owning
table, column, referenced table, ON DELETE action.  (Every constraint in
the file is ON UPDATE CASCADE.) -/
structure ForeignKey where
  name : String
  table : String
  column : String
  refTable : String
  onDelete : OnDeleteAction
deriving DecidableEq, Repr

/-- All fourteen FOREIGN KEY constraints of
`20250826131926_init/migration.sql`, in file order. -/
def schemaForeignKeys : List ForeignKey :=
  [ ⟨"contracts_cohortId_fkey", "contracts", "cohortId", "cohorts", .Restrict⟩,
    ⟨"clauses_contractId_fkey", "clauses", "contractId", "contracts", .Restrict⟩,
    ⟨"clauses_userId_fkey", "clauses", "userId", "users", .Restrict⟩,
    ⟨"amendments_userId_fkey", "amendments", "userId", "users", .Restrict⟩,
    ⟨"amendments_clauseId_fkey", "amendments", "clauseId", "clauses", .Restrict⟩,
    ⟨"tension_measurements_contractId_fkey", "tension_measurements", "contractId", "contracts", .Restrict⟩,
    ⟨"tension_measurements_userId_fkey", "tension_measurements", "userId", "users", .Restrict⟩,
    ⟨"journal_entries_contractId_fkey", "journal_entries", "contractId", "contracts", .Restrict⟩,
    ⟨"journal_entries_userId_fkey", "journal_entries", "userId", "users", .Restrict⟩,
    ⟨"failure_entries_contractId_fkey", "failure_entries", "contractId", "contracts", .Restrict⟩,
    ⟨"failure_entries_userId_fkey", "failure_entries", "userId", "users", .Restrict⟩,
    ⟨"iterations_failureEntryId_fkey", "iterations", "failureEntryId", "failure_entries", .Restrict⟩,
    ⟨"_CohortMembers_A_fkey", "_CohortMembers", "A", "cohorts", .Cascade⟩,
    ⟨"_CohortMembers_B_fkey", "_CohortMembers", "B", "users", .Cascade⟩ ]

/-- The decision argument of the spec's `decide` operation. -/
inductive Decision where
  | ACCEPT
  | REJECT
deriving DecidableEq, Repr

/-- Modelled from the spec: `decide(amendmentId, decision, deciderId)` of
section 4.1.  No handler under `src/` transitions `Amendment.status`
(section 9 notes the source never transitions it); the spec supplies the
semantics: transition from PENDING to ACCEPTED or REJECTED, fail with
`InvalidState` when the amendment is not currently PENDING; on ACCEPT the
clause's content is overwritten with the amendment's content and its
updated timestamp advances (to `now`); on REJECT the clause is untouched. -/
def decideAmendment (s : Store) (amendmentId : String) (d : Decision)
    (deciderId : String) (now : Nat) : Except ApiError Store :=
  match findAmendment s amendmentId with
  | none => .error .NotFound
  | some a =>
    if a.status ≠ .PENDING then .error .InvalidState
    else
      match d with
      | .ACCEPT => .ok { s with
          amendments := s.amendments.map (fun b =>
            if b.id == amendmentId then { b with status := .ACCEPTED, updatedAt := now } else b),
          clauses := s.clauses.map (fun c =>
            if c.id == a.clauseId then { c with content := a.content, updatedAt := now } else c) }
      | .REJECT => .ok { s with
          amendments := s.amendments.map (fun b =>
            if b.id == amendmentId then { b with status := .REJECTED, updatedAt := now } else b) }

/-- The store after a `decide` call: unchanged when the call fails. -/
def decideAmendmentStore (s : Store) (amendmentId : String) (d : Decision)
    (deciderId : String) (now : Nat) : Store :=
  match decideAmendment s amendmentId d deciderId now with
  | .ok s2 => s2
  | .error _ => s

/-- Modelled from the spec: `history(clauseId)` of section 4.1 — the
amendments of the clause ordered by creation time ascending.  No dedicated
history operation exists under `src/`; the closest code, the `amendments`
include of GET /contracts/:id (contracts.ts lines 82-92), carries no
explicit ordering. -/
def history (s : Store) (clauseId : String) : List Amendment :=
  List.insertionSort (fun a b => a.createdAt ≤ b.createdAt)
    (s.amendments.filter (fun a => a.clauseId == clauseId))

/-! Concrete sample rows and a sample store, used to exercise the handlers
on explicit inputs.  Contract `con1` owns clause `cl1` (content "v1");
amendment `am1` is PENDING and `am2` already ACCEPTED, both on `cl1`;
contract `con2` owns no clause but is referenced by tension measurement
`tm1`. -/

def u1 : User :=
  { id := "u1", email := "u1@example.com", name := none, role := .PARTICIPANT,
    createdAt := 0, updatedAt := 0 }

def coh1 : Cohort :=
  { id := "coh1", name := "Cohort One", description := none, createdAt := 0, updatedAt := 0 }

def con1 : Contract :=
  { id := "con1", title := "Contract One", cohortId := "coh1", createdAt := 0, updatedAt := 0 }

def con2 : Contract :=
  { id := "con2", title := "Contract Two", cohortId := "coh1", createdAt := 0, updatedAt := 0 }

def cl1 : Clause :=
  { id := "cl1", title := "Clause One", content := "v1", contractId := "con1",
    userId := "u1", createdAt := 0, updatedAt := 0 }

def am1 : Amendment :=
  { id := "am1", content := "v2", userId := "u1", clauseId := "cl1",
    status := .PENDING, createdAt := 1, updatedAt := 1 }

def am2 : Amendment :=
  { id := "am2", content := "v3", userId := "u1", clauseId := "cl1",
    status := .ACCEPTED, createdAt := 2, updatedAt := 2 }

def tm1 : TensionMeasurement :=
  { id := "tm1", value := 5, context := none, contractId := "con2", userId := "u1",
    createdAt := 0 }

def baseStore : Store :=
  { users := [u1], cohorts := [coh1], contracts := [con1, con2], clauses := [cl1],
    amendments := [am1, am2], tensionMeasurements := [tm1], journalEntries := [],
    failureEntries := [], iterations := [], cohortMembers := [("coh1", "u1")] }

/-- `find?` by clause id commutes with the per-clause content update of the
ACCEPT branch, because the update never changes a clause's `id`. -/
theorem find?_update_clause (cl : List Clause) (cid ct : String) (now : Nat) :
    (cl.map (fun c => if c.id == cid then { c with content := ct, updatedAt := now } else c)).find?
        (fun c => c.id == cid)
      = (cl.find? (fun c => c.id == cid)).map
          (fun c => if c.id == cid then { c with content := ct, updatedAt := now } else c) := by
  induction cl with
  | nil => rfl
  | cons x xs ih =>
    by_cases hx : (x.id == cid) = true
    · have hx' : x.id = cid := by simpa using hx
      simp [List.find?, hx, hx']
    · simp only [List.map_cons, List.find?, hx, if_neg hx]
      simpa [hx] using ih

/-- C1: a `decide` call on an Amendment whose status is not PENDING (i.e.
already ACCEPTED or REJECTED) fails with `InvalidState` regardless of the
decision value, and leaves the store unchanged — no transition out of
ACCEPTED or REJECTED ever occurs. -/
theorem decide_requires_pending (s : Store) (aid did : String) (d : Decision)
    (now : Nat) (a : Amendment)
    (hfind : findAmendment s aid = some a) (hnp : a.status ≠ .PENDING) :
    decideAmendment s aid d did now = .error .InvalidState ∧
    decideAmendmentStore s aid d did now = s := by
  have h1 : decideAmendment s aid d did now = .error .InvalidState := by
    unfold decideAmendment
    simp only [hfind]
    rw [if_pos hnp]
  exact ⟨h1, by unfold decideAmendmentStore; rw [h1]⟩

/-- Concrete instance of `decide_requires_pending`: amendment `am2` of the
sample store is already ACCEPTED, so re-deciding it fails with
`InvalidState` and the store is untouched. -/
theorem decide_requires_pending_witness :
    decideAmendment baseStore "am2" .ACCEPT "u1" 5 = .error .InvalidState ∧
    decideAmendmentStore baseStore "am2" .ACCEPT "u1" 5 = baseStore :=
  decide_requires_pending baseStore "am2" "u1" .ACCEPT 5 am2 (by decide) (by decide)

/-- C2: deciding a PENDING Amendment with ACCEPT overwrites the referenced
Clause's content with the Amendment's content and advances the Clause's
`updatedAt` (to `now`, strictly above its previous value); deciding it with
REJECT leaves the clauses table — hence the Clause's content and
`updatedAt` — unchanged. -/
theorem decide_accept_reject_effect (s : Store) (aid did : String) (now : Nat)
    (a : Amendment) (c : Clause)
    (hfind : findAmendment s aid = some a) (hp : a.status = .PENDING)
    (hc : findClause s a.clauseId = some c) (hnow : c.updatedAt < now) :
    (∃ s2, decideAmendment s aid .ACCEPT did now = .ok s2 ∧
      findClause s2 a.clauseId = some { c with content := a.content, updatedAt := now } ∧
      c.updatedAt < ({ c with content := a.content, updatedAt := now } : Clause).updatedAt) ∧
    (∃ s2, decideAmendment s aid .REJECT did now = .ok s2 ∧ s2.clauses = s.clauses) := by
  have hnp : ¬ (a.status ≠ AmendmentStatus.PENDING) := by simp [hp]
  unfold findClause at hc
  have hpc : (c.id == a.clauseId) = true := by simpa using List.find?_some hc
  have hacc : decideAmendment s aid .ACCEPT did now = .ok
      { s with
        amendments := s.amendments.map (fun b =>
          if b.id == aid then { b with status := .ACCEPTED, updatedAt := now } else b),
        clauses := s.clauses.map (fun c' =>
          if c'.id == a.clauseId then { c' with content := a.content, updatedAt := now } else c') } := by
    unfold decideAmendment
    simp only [hfind]
    rw [if_neg hnp]
  have hrej : decideAmendment s aid .REJECT did now = .ok
      { s with
        amendments := s.amendments.map (fun b =>
          if b.id == aid then { b with status := .REJECTED, updatedAt := now } else b) } := by
    unfold decideAmendment
    simp only [hfind]
    rw [if_neg hnp]
  refine ⟨⟨_, hacc, ?_, hnow⟩, ⟨_, hrej, rfl⟩⟩
  unfold findClause
  rw [find?_update_clause, hc, Option.map_some', if_pos hpc]

/-- Concrete instance of `decide_accept_reject_effect`: accepting the
PENDING amendment `am1` rewrites clause `cl1` to content "v2" with
`updatedAt` 3; rejecting it leaves the clauses table of the sample store
unchanged. -/
theorem decide_accept_reject_effect_witness :
    (∃ s2, decideAmendment baseStore "am1" .ACCEPT "u9" 3 = .ok s2 ∧
      findClause s2 am1.clauseId = some { cl1 with content := am1.content, updatedAt := 3 } ∧
      cl1.updatedAt < ({ cl1 with content := am1.content, updatedAt := 3 } : Clause).updatedAt) ∧
    (∃ s2, decideAmendment baseStore "am1" .REJECT "u9" 3 = .ok s2 ∧
      s2.clauses = baseStore.clauses) :=
  decide_accept_reject_effect baseStore "am1" "u9" 3 am1 cl1
    (by decide) (by decide) (by decide) (by decide)

/-- C3: a POST /contracts/:id/amend call whose `clauseId` or `userId` does
not resolve to an existing row fails with `NotFound` and persists nothing:
the store after the call is the store before it. -/
theorem propose_missing_ref_fails (s : Store) (pid fid : String) (now : Nat)
    (cid ct uid : String)
    (h : findClause s cid = none ∨ findUser s uid = none) :
    amendHandler s pid fid now cid ct uid = .error .NotFound ∧
    amendHandlerStore s pid fid now cid ct uid = s := by
  have h1 : amendHandler s pid fid now cid ct uid = .error .NotFound := by
    unfold amendHandler
    rcases h with h | h
    · rw [h]
    · rw [h]
      cases findClause s cid <;> rfl
  exact ⟨h1, by unfold amendHandlerStore; rw [h1]⟩

/-- Concrete instance of `propose_missing_ref_fails`: no clause "missing"
exists in the sample store, so the amend call fails and changes nothing. -/
theorem propose_missing_ref_fails_witness :
    amendHandler baseStore "con1" "am9" 4 "missing" "vx" "u1" = .error .NotFound ∧
    amendHandlerStore baseStore "con1" "am9" 4 "missing" "vx" "u1" = baseStore :=
  propose_missing_ref_fails baseStore "con1" "am9" 4 "missing" "vx" "u1"
    (Or.inl (by decide))

/-- C4: a POST /contracts/:id/amend call never mutates any existing record:
every table other than `amendments` is unchanged (in particular every
clause, so the target Clause's content is the same before and after), and
`amendments` is either unchanged (failure) or the old table with exactly
one new row appended (success). -/
theorem propose_frame (s : Store) (pid fid : String) (now : Nat)
    (cid ct uid : String) :
    (amendHandlerStore s pid fid now cid ct uid).users = s.users ∧
    (amendHandlerStore s pid fid now cid ct uid).cohorts = s.cohorts ∧
    (amendHandlerStore s pid fid now cid ct uid).contracts = s.contracts ∧
    (amendHandlerStore s pid fid now cid ct uid).clauses = s.clauses ∧
    (amendHandlerStore s pid fid now cid ct uid).tensionMeasurements = s.tensionMeasurements ∧
    (amendHandlerStore s pid fid now cid ct uid).journalEntries = s.journalEntries ∧
    (amendHandlerStore s pid fid now cid ct uid).failureEntries = s.failureEntries ∧
    (amendHandlerStore s pid fid now cid ct uid).iterations = s.iterations ∧
    (amendHandlerStore s pid fid now cid ct uid).cohortMembers = s.cohortMembers ∧
    ((amendHandlerStore s pid fid now cid ct uid).amendments = s.amendments ∨
      ∃ a, (amendHandlerStore s pid fid now cid ct uid).amendments = s.amendments ++ [a]) := by
  unfold amendHandlerStore amendHandler
  cases findClause s cid <;> cases findUser s uid <;>
    refine ⟨rfl, rfl, rfl, rfl, rfl, rfl, rfl, rfl, rfl, ?_⟩
  · exact Or.inl rfl
  · exact Or.inl rfl
  · exact Or.inl rfl
  · exact Or.inr ⟨_, rfl⟩

/-- C5: whenever a POST /contracts/:id/amend call succeeds, the created
Amendment has status PENDING, and the row builder's stored default supplies
PENDING when the insert gives no status (as the handler's insert does). -/
theorem propose_initial_pending (s : Store) (pid fid : String) (now : Nat)
    (cid ct uid : String) (s2 : Store) (a : Amendment)
    (h : amendHandler s pid fid now cid ct uid = .ok (s2, a)) :
    a.status = .PENDING ∧ (mkAmendmentRow fid ct uid cid none now).status = .PENDING := by
  unfold amendHandler at h
  cases hfc : findClause s cid <;> rw [hfc] at h
  · cases hfu : findUser s uid <;> rw [hfu] at h <;> exact Except.noConfusion h
  · cases hfu : findUser s uid <;> rw [hfu] at h
    · exact Except.noConfusion h
    · refine ⟨?_, rfl⟩
      injection h with h2
      injection h2 with hs ha
      rw [← ha]
      rfl

/-- Concrete instance of `propose_initial_pending`: amending clause `cl1`
of the sample store succeeds and the created amendment is PENDING. -/
theorem propose_initial_pending_witness :
    (mkAmendmentRow "am3" "v4" "u1" "cl1" none 6).status = .PENDING ∧
    (mkAmendmentRow "am3" "v4" "u1" "cl1" none 6).status = .PENDING :=
  propose_initial_pending baseStore "con1" "am3" 6 "cl1" "v4" "u1"
    { baseStore with
      amendments := baseStore.amendments ++ [mkAmendmentRow "am3" "v4" "u1" "cl1" none 6] }
    (mkAmendmentRow "am3" "v4" "u1" "cl1" none 6) rfl

/-- C6 counterexample: the `_CohortMembers_A_fkey` constraint of the
persisted schema (migration.sql line 111) is ON DELETE CASCADE, so it is
false that every foreign key is restrict-on-delete. -/
theorem cohortMembers_fkey_cascades :
    (⟨"_CohortMembers_A_fkey", "_CohortMembers", "A", "cohorts", .Cascade⟩ : ForeignKey)
        ∈ schemaForeignKeys ∧
    ¬ (∀ fk ∈ schemaForeignKeys, fk.onDelete = .Restrict) := by decide

/-- C6 amended: every foreign key of the persisted schema is
restrict-on-delete except the two on the `_CohortMembers` join table,
which cascade on delete (the membership rows of a deleted cohort or user
are removed rather than blocking the delete). -/
theorem schema_on_delete (fk : ForeignKey) (hmem : fk ∈ schemaForeignKeys) :
    (fk.table = "_CohortMembers" → fk.onDelete = .Cascade) ∧
    (fk.table ≠ "_CohortMembers" → fk.onDelete = .Restrict) := by
  have hall : ∀ fk ∈ schemaForeignKeys,
      (fk.table = "_CohortMembers" → fk.onDelete = OnDeleteAction.Cascade) ∧
      (fk.table ≠ "_CohortMembers" → fk.onDelete = OnDeleteAction.Restrict) := by decide
  exact hall fk hmem

/-- Concrete instance of `schema_on_delete` at `clauses_contractId_fkey`,
which does not sit on the join table and is restrict-on-delete. -/
theorem schema_on_delete_witness :
    ((⟨"clauses_contractId_fkey", "clauses", "contractId", "contracts",
        .Restrict⟩ : ForeignKey).table = "_CohortMembers" →
      (⟨"clauses_contractId_fkey", "clauses", "contractId", "contracts",
        .Restrict⟩ : ForeignKey).onDelete = .Cascade) ∧
    ((⟨"clauses_contractId_fkey", "clauses", "contractId", "contracts",
        .Restrict⟩ : ForeignKey).table ≠ "_CohortMembers" →
      (⟨"clauses_contractId_fkey", "clauses", "contractId", "contracts",
        .Restrict⟩ : ForeignKey).onDelete = .Restrict) :=
  schema_on_delete
    ⟨"clauses_contractId_fkey", "clauses", "contractId", "contracts", .Restrict⟩
    (by decide)

/-- C7 counterexample: contract `con2` of the sample store owns no clause,
yet DELETE /contracts/con2 does not succeed — tension measurement `tm1`
still references it through a restrict foreign key, so the delete fails
with `ConstraintViolation`. -/
theorem delete_contract_no_clause_still_blocked :
    baseStore.clauses.all (fun c => !(c.contractId == "con2")) = true ∧
    (findContract baseStore "con2").isSome = true ∧
    deleteContract baseStore "con2" = .error .ConstraintViolation :=
  ⟨by decide, by decide, rfl⟩

/-- C7 amended: for an existing contract, DELETE /contracts/:id fails with
`ConstraintViolation` and leaves the store unchanged whenever the contract
still owns a clause; it succeeds and removes exactly the rows with that id
when no clause, tension measurement, journal entry, or failure entry
references the contract. -/
theorem delete_contract_rules (s : Store) (cid : String)
    (hex : (findContract s cid).isSome = true) :
    (s.clauses.any (fun c => c.contractId == cid) = true →
      deleteContract s cid = .error .ConstraintViolation ∧
      deleteContractStore s cid = s) ∧
    (contractDependents s cid = false →
      deleteContract s cid =
        .ok { s with contracts := s.contracts.filter (fun c => !(c.id == cid)) }) := by
  have hfalse : ¬ ((findContract s cid).isNone = true) := by
    cases hfc : findContract s cid with
    | none => rw [hfc] at hex; simp at hex
    | some c => simp
  constructor
  · intro hcl
    have hdep : contractDependents s cid = true := by
      unfold contractDependents
      rw [hcl]
      rfl
    have h1 : deleteContract s cid = .error .ConstraintViolation := by
      unfold deleteContract
      rw [if_neg hfalse, if_pos hdep]
    exact ⟨h1, by unfold deleteContractStore; rw [h1]⟩
  · intro hdep
    unfold deleteContract
    rw [if_neg hfalse, if_neg (by simp [hdep])]

/-- Concrete instance of `delete_contract_rules`: contract `con1` still
owns clause `cl1`, so deleting it fails and the store is unchanged. -/
theorem delete_contract_rules_witness :
    deleteContract baseStore "con1" = .error .ConstraintViolation ∧
    deleteContractStore baseStore "con1" = baseStore :=
  (delete_contract_rules baseStore "con1" (by decide)).1 (by decide)

/-- C8: GET /contracts/:id returns 404 (`none`) iff no stored contract has
the requested id; when one does, the response is 200 with a view whose
contract is a stored contract with that id and whose clauses and cohort
follow the handler's include tree. -/
theorem getContract_found_iff (s : Store) (id : String) :
    (getContractHandler s id = none ↔ ∀ c ∈ s.contracts, c.id ≠ id) ∧
    (∀ c ∈ s.contracts, c.id = id →
      ∃ v, getContractHandler s id = some v ∧ v.contract ∈ s.contracts ∧
        v.contract.id = id ∧
        v.clauses = (s.clauses.filter
          (fun cl => cl.contractId == v.contract.id)).map (clauseView s) ∧
        v.cohort = (s.cohorts.find?
          (fun co => co.id == v.contract.cohortId)).map (cohortView s)) := by
  constructor
  · unfold getContractHandler findContract
    simp [List.find?_eq_none]
  · intro c hc hcid
    cases hfc : s.contracts.find? (fun c2 => c2.id == id) with
    | none =>
      rw [List.find?_eq_none] at hfc
      exact absurd (by simp [hcid]) (hfc c hc)
    | some c2 =>
      have hmem : c2 ∈ s.contracts := List.mem_of_find?_eq_some hfc
      have hid : c2.id = id := by simpa using List.find?_some hfc
      refine ⟨ContractView.mk c2
        ((s.clauses.filter (fun cl => cl.contractId == c2.id)).map (clauseView s))
        ((s.cohorts.find? (fun co => co.id == c2.cohortId)).map (cohortView s)),
        ?_, hmem, hid, rfl, rfl⟩
      unfold getContractHandler findContract
      rw [hfc]
      rfl

/-- Concrete instance of `getContract_found_iff`: contract `con1` exists in
the sample store, so GET /contracts/con1 returns 200 with its full view. -/
theorem getContract_found_iff_witness :
    ∃ v, getContractHandler baseStore "con1" = some v ∧
      v.contract ∈ baseStore.contracts ∧ v.contract.id = "con1" ∧
      v.clauses = (baseStore.clauses.filter
        (fun cl => cl.contractId == v.contract.id)).map (clauseView baseStore) ∧
      v.cohort = (baseStore.cohorts.find?
        (fun co => co.id == v.contract.cohortId)).map (cohortView baseStore) :=
  (getContract_found_iff baseStore "con1").2 con1 (by decide) (by decide)

/-- C9: `history(clauseId)` is the finite list of exactly the stored
amendments whose `clauseId` matches, ordered by creation time ascending;
being a pure function of the store, repeating the query on the same store
returns the same sequence. -/
theorem history_spec (s : Store) (cid : String) :
    List.Sorted (fun a b : Amendment => a.createdAt ≤ b.createdAt) (history s cid) ∧
    (∀ a : Amendment, a ∈ history s cid ↔ (a ∈ s.amendments ∧ a.clauseId = cid)) := by
  constructor
  · unfold history
    haveI htot : IsTotal Amendment (fun a b => a.createdAt ≤ b.createdAt) :=
      ⟨fun a b => Nat.le_total a.createdAt b.createdAt⟩
    haveI htrans : IsTrans Amendment (fun a b => a.createdAt ≤ b.createdAt) :=
      ⟨fun a b c hab hbc => Nat.le_trans hab hbc⟩
    exact List.sorted_insertionSort _ _
  · intro a
    unfold history
    rw [List.mem_insertionSort, List.mem_filter]
    simp

/-- C10: POST /contracts/:id/amend ignores the :id path parameter — the
same body yields the same result and the same created amendment under any
contract id in the URL — and the call succeeds exactly when the body's
clauseId and userId resolve, with no check that the clause belongs to the
contract named in the path. -/
theorem amend_ignores_path (s : Store) (p1 p2 fid : String) (now : Nat)
    (cid ct uid : String) :
    amendHandler s p1 fid now cid ct uid = amendHandler s p2 fid now cid ct uid ∧
    ((∃ r, amendHandler s p1 fid now cid ct uid = .ok r) ↔
      ((findClause s cid).isSome = true ∧ (findUser s uid).isSome = true)) := by
  refine ⟨rfl, ?_⟩
  unfold amendHandler
  cases findClause s cid <;> cases findUser s uid <;> simp
